import Mathlib

set_option maxRecDepth 20000

/-
Verification development for the PII detection core of
scripts/local-llm-server.py.

The source applies a fixed, insertion-ordered catalog of regular-expression
rules (all compiled with re.IGNORECASE) to an input text via re.finditer,
accepts each match unless it collides with an already-accepted entity, and
returns the accepted entities with a fixed confidence constant.

The embedding below gives abstract syntax for the regex subset the catalog
uses (character classes, concatenation, ordered alternation, greedy
repetition and the word-boundary assertion), an ordered-backtracking matcher
with Python's leftmost / first-alternative / greedy semantics, the full
catalog transcribed rule by rule, and the analyze_text procedure itself.
-/

namespace PII

/-- Character-class atom: a single character or an inclusive character range,
as written inside square brackets in a pattern. -/
inductive CAtom where
  | ch (c : Char)
  | range (lo hi : Char)
deriving DecidableEq, Repr

/-- Character class: a list of atoms; a character belongs to the class when it
matches some atom. -/
structure CCls where
  atoms : List CAtom
deriving DecidableEq, Repr

/-- Raw membership of a character in a class, before case folding. -/
def rawMem (cl : CCls) (c : Char) : Bool :=
  cl.atoms.any (fun a =>
    match a with
    | CAtom.ch d => c == d
    | CAtom.range lo hi => decide (lo ≤ c) && decide (c ≤ hi))

/-- Membership under re.IGNORECASE: the character itself, its lower-case form
or its upper-case form belongs to the raw class (ASCII case folding, which is
what Python performs on the ASCII texts considered here). The source compiles
every rule with re.IGNORECASE (line 136). -/
def memIC (cl : CCls) (c : Char) : Bool :=
  rawMem cl c || rawMem cl c.toLower || rawMem cl c.toUpper

/-- Word character for the word-boundary assertion: ASCII letters, digits and
underscore (Python \w, restricted to ASCII). -/
def wordChar (c : Char) : Bool :=
  c.isAlphanum || c == '_'

/-- Is position i a word boundary of the character list s: exactly one of the
character before i and the character at i is a word character (positions
outside the text count as non-word). -/
def wordBoundary (s : List Char) (i : Nat) : Bool :=
  let wAt : Nat → Bool := fun j =>
    match s.get? j with
    | some c => wordChar c
    | none => false
  match i with
  | 0 => wAt 0
  | j+1 => wAt j != wAt (j+1)

/-- Regular-expression abstract syntax for the subset of Python re that the
pattern catalog uses: empty, one character from a class, concatenation,
ordered alternation, greedy Kleene star and the word-boundary assertion.
Optionality and counted repetition are derived forms. -/
inductive RE where
  | eps
  | cls (c : CCls)
  | seq (a b : RE)
  | alt (a b : RE)
  | star (r : RE)
  | wordB
deriving DecidableEq, Repr

/-- One backtracking pass of the matcher, structurally recursive on the regex.
The continuation k receives the position after the part just matched and
returns the end position of the whole match if the rest succeeds. Alternation
tries the left branch first, and star greedily tries a further (progressing)
body repetition before falling back to the continuation, which is exactly
Python's ordered backtracking. Re-entry into star after a completed body
repetition goes through recur, which the driver mrun supplies with one unit
less fuel. -/
def mrunRE (s : List Char) (recur : RE → Nat → (Nat → Option Nat) → Option Nat) :
    RE → Nat → (Nat → Option Nat) → Option Nat
  | RE.eps, i, k => k i
  | RE.cls c, i, k =>
    match s.get? i with
    | some ch => if memIC c ch then k (i+1) else none
    | none => none
  | RE.seq a b, i, k => mrunRE s recur a i (fun j => mrunRE s recur b j k)
  | RE.alt a b, i, k =>
    match mrunRE s recur a i k with
    | some j => some j
    | none => mrunRE s recur b i k
  | RE.star r, i, k =>
    match mrunRE s recur r i (fun j => if j == i then none else recur (RE.star r) j k) with
    | some j => some j
    | none => k i
  | RE.wordB, i, k => if wordBoundary s i then k i else none

/-- Fuelled driver for the matcher: every star re-entry costs one unit of
fuel, and every re-entry is preceded by at least one consumed character, so
fuel s.length + 1 never runs out on a real match attempt. -/
def mrun (s : List Char) : Nat → RE → Nat → (Nat → Option Nat) → Option Nat
  | 0, re, i, k => mrunRE s (fun _ _ _ => none) re i k
  | fuel+1, re, i, k => mrunRE s (mrun s fuel) re i k

/-- Attempt an anchored match at position i; returns the end position of the
match that ordered backtracking finds, if any. -/
def matchAt (re : RE) (s : List Char) (i : Nat) : Option Nat :=
  mrun s (s.length + 1) re i some

/-- Scan positions left to right collecting non-overlapping matches, exactly
as re.finditer does: after a non-empty match the scan resumes at its end,
after a failure or an empty match it advances one position. -/
def finditerAux (re : RE) (s : List Char) : Nat → Nat → List (Nat × Nat)
  | 0, _ => []
  | fuel+1, i =>
    if i ≤ s.length then
      match matchAt re s i with
      | some j => (i, j) :: finditerAux re s fuel (if i < j then j else i+1)
      | none => finditerAux re s fuel (i+1)
    else []

/-- All matches of a rule in the text, in scan order, as (start, end) spans. -/
def finditer (re : RE) (s : List Char) : List (Nat × Nat) :=
  finditerAux re s (s.length + 2) 0

/- Derived regex forms used while transcribing the catalog. -/

/-- Class regex from a list of atoms. -/
def cc (l : List CAtom) : RE := RE.cls ⟨l⟩

/-- Literal character. -/
def lit (c : Char) : RE := cc [CAtom.ch c]

/-- Literal string, one character at a time. -/
def lits (str : String) : RE := str.data.foldr (fun c r => RE.seq (lit c) r) RE.eps

/-- Concatenation of a list of regexes. -/
def seqs (l : List RE) : RE := l.foldr RE.seq RE.eps

/-- Ordered alternation of a list of regexes, left branch preferred. -/
def alts : List RE → RE
  | [] => RE.eps
  | [r] => r
  | r :: rs => RE.alt r (alts rs)

/-- Greedy optional element (Python ?). -/
def opt (r : RE) : RE := RE.alt r RE.eps

/-- Greedy one-or-more repetition (Python +). -/
def plus (r : RE) : RE := RE.seq r (RE.star r)

/-- Exactly n copies (Python curly repetition with a single count). -/
def repE (n : Nat) (r : RE) : RE := seqs (List.replicate n r)

/-- Greedily up to n copies. -/
def upto : Nat → RE → RE
  | 0, _ => RE.eps
  | n+1, r => RE.alt (RE.seq r (upto n r)) RE.eps

/-- Between m and n copies, greedy (Python curly m,n repetition). -/
def repB (m n : Nat) (r : RE) : RE := RE.seq (repE m r) (upto (n - m) r)

/-- At least m copies, greedy (Python curly m, repetition). -/
def repAL (m : Nat) (r : RE) : RE := RE.seq (repE m r) (RE.star r)

/- Character-class shorthands appearing in the catalog. -/

def dcls : RE := cc [CAtom.range '0' '9']

/-- Atoms of the whitespace escape: space, tab, newline, carriage return,
vertical tab and form feed. -/
def sAtoms : List CAtom :=
  [CAtom.ch ' ', CAtom.ch '\t', CAtom.ch '\n', CAtom.ch '\r',
   CAtom.ch (Char.ofNat 11), CAtom.ch (Char.ofNat 12)]

def scls : RE := cc sAtoms

def upperA : RE := cc [CAtom.range 'A' 'Z']

def lowerA : RE := cc [CAtom.range 'a' 'z']

def alphaA : RE := cc [CAtom.range 'A' 'Z', CAtom.range 'a' 'z']

def wb : RE := RE.wordB

/-- Class of dash or dot. -/
def dashDot : RE := cc [CAtom.ch '-', CAtom.ch '.']

/-- Class of dash, dot or whitespace. -/
def dashDotS : RE := cc ([CAtom.ch '-', CAtom.ch '.'] ++ sAtoms)

/-- Class of dash or whitespace. -/
def dashS : RE := cc (CAtom.ch '-' :: sAtoms)

/-- Class of dash or slash. -/
def dashSlash : RE := cc [CAtom.ch '-', CAtom.ch '/']

/-- Class of dash or plus sign. -/
def signC : RE := cc [CAtom.ch '-', CAtom.ch '+']

def emailLocalC : RE :=
  cc [CAtom.range 'A' 'Z', CAtom.range 'a' 'z', CAtom.range '0' '9',
      CAtom.ch '.', CAtom.ch '_', CAtom.ch '%', CAtom.ch '+', CAtom.ch '-']

def emailDomainC : RE :=
  cc [CAtom.range 'A' 'Z', CAtom.range 'a' 'z', CAtom.range '0' '9',
      CAtom.ch '.', CAtom.ch '-']

/-- Class written [A-Z|a-z] in the source (it literally contains the bar). -/
def emailTldC : RE := cc [CAtom.range 'A' 'Z', CAtom.ch '|', CAtom.range 'a' 'z']

def hexC : RE := cc [CAtom.range '0' '9', CAtom.range 'a' 'f', CAtom.range 'A' 'F']

def upDigC : RE := cc [CAtom.range 'A' 'Z', CAtom.range '0' '9']

def userC : RE :=
  cc [CAtom.range 'A' 'Z', CAtom.range 'a' 'z', CAtom.range '0' '9',
      CAtom.ch '.', CAtom.ch '_', CAtom.ch '-']

/-- VIN class [A-HJ-NPR-Z0-9]. -/
def vinC : RE :=
  cc [CAtom.range 'A' 'H', CAtom.range 'J' 'N', CAtom.ch 'P',
      CAtom.range 'R' 'Z', CAtom.range '0' '9']

/-- Class [A-Za-z\s] used by the address patterns. -/
def addrC : RE := cc ([CAtom.range 'A' 'Z', CAtom.range 'a' 'z'] ++ sAtoms)

/-
The pattern catalog of PIIDetector.__init__ (lines 32-123), transcribed rule
by rule in source order. Each list below is one category's rule list; each
element is the abstract syntax of the corresponding regex literal.
-/

/-- PERSON rules (lines 33-42). -/
def personRules : List RE :=
  [ seqs [wb, upperA, plus lowerA, lit ' ', upperA, plus lowerA, wb],
    seqs [wb,
      alts [lits "Mr", lits "Ms", lits "Mrs", lits "Dr", lits "Prof",
            lits "Sir", lits "Dame", lits "Lord", lits "Lady"],
      opt (lit '.'), plus scls, upperA, plus lowerA, wb],
    seqs [wb, upperA, plus lowerA, opt (lit ','), plus scls,
      alts [lits "Jr", lits "Sr", lits "III", lits "IV", lits "V",
            lits "VI", lits "VII", lits "VIII", lits "IX", lits "X"],
      opt (lit '.'), wb],
    seqs [wb, upperA, plus lowerA, plus scls, upperA, opt (lit '.'), plus scls,
      upperA, plus lowerA, wb],
    seqs [wb, upperA, opt (lit '.'), plus scls, upperA, plus lowerA, wb],
    seqs [wb, lits "My name is", plus scls, upperA, plus lowerA,
      RE.star (seqs [plus scls, upperA, plus lowerA]), wb],
    seqs [wb, lits "I am", plus scls, upperA, plus lowerA,
      RE.star (seqs [plus scls, upperA, plus lowerA]), wb],
    seqs [wb, lits "Full", plus scls, lits "Name", opt (lit ':'), plus scls,
      upperA, plus lowerA, RE.star (seqs [plus scls, upperA, plus lowerA]), wb] ]

/-- PHONE rules (lines 43-51). -/
def phoneRules : List RE :=
  [ seqs [wb, repE 3 dcls, opt dashDot, repE 3 dcls, opt dashDot, repE 4 dcls, wb],
    seqs [lit '(', repE 3 dcls, lit ')', opt scls, repE 3 dcls, opt dashDot,
      repE 4 dcls],
    seqs [lit '+', lit '1', opt dashDotS, repE 3 dcls, opt dashDotS, repE 3 dcls,
      opt dashDotS, repE 4 dcls, wb],
    seqs [wb, lit '1', opt dashDotS, repE 3 dcls, opt dashDotS, repE 3 dcls,
      opt dashDotS, repE 4 dcls, wb],
    seqs [wb, alts [lits "phone", lits "mobile", lits "cell", lits "tel"],
      opt (lit '.'), opt (lit ':'), RE.star scls, repE 3 dcls, opt dashDotS,
      repE 3 dcls, opt dashDotS, repE 4 dcls, wb],
    seqs [wb, lit '+', repB 1 3 dcls, opt dashDotS, repB 3 4 dcls, opt dashDotS,
      repB 3 4 dcls, opt dashDotS, repE 4 dcls, wb],
    seqs [wb, repE 3 dcls, opt dashDotS, repE 4 dcls, wb] ]

/-- Body shared by every EMAIL rule: local part, at sign, domain, dot, TLD. -/
def emailCore : RE :=
  seqs [plus emailLocalC, lit '@', plus emailDomainC, lit '.', repAL 2 emailTldC]

/-- EMAIL rules (lines 52-57). -/
def emailRules : List RE :=
  [ seqs [wb, emailCore, wb],
    seqs [wb, alts [lits "email", lits "e-mail"], opt (lit '.'), opt (lit ':'),
      RE.star scls, emailCore, wb],
    seqs [wb, lits "contact", plus scls, lits "me", plus scls, lits "at",
      plus scls, emailCore, wb],
    seqs [wb, lits "send", plus scls, lits "to", plus scls, emailCore, wb] ]

/-- SSN rules (lines 58-63). -/
def ssnRules : List RE :=
  [ seqs [wb, repE 3 dcls, lit '-', repE 2 dcls, lit '-', repE 4 dcls, wb],
    seqs [wb, repE 3 dcls, scls, repE 2 dcls, scls, repE 4 dcls, wb],
    seqs [wb, alts [lits "ssn", seqs [lits "social", plus scls, lits "security"]],
      opt (lit '.'), opt (lit ':'), RE.star scls, repE 3 dcls, opt dashS,
      repE 2 dcls, opt dashS, repE 4 dcls, wb],
    seqs [wb, repE 9 dcls, wb] ]

/-- Street suffix alternation of the first ADDRESS rule, in source order. -/
def streetSufLong : RE :=
  alts [lits "Street", lits "St", lits "Avenue", lits "Ave", lits "Road",
        lits "Rd", lits "Boulevard", lits "Blvd", lits "Lane", lits "Ln",
        lits "Drive", lits "Dr", lits "Circle", lits "Cir", lits "Court",
        lits "Ct", lits "Place", lits "Pl", lits "Way", lits "Parkway",
        lits "Pkwy"]

/-- Street suffix alternation of the second ADDRESS rule. -/
def streetSufMid : RE :=
  alts [lits "Street", lits "St", lits "Avenue", lits "Ave", lits "Road",
        lits "Rd", lits "Boulevard", lits "Blvd", lits "Lane", lits "Ln",
        lits "Drive", lits "Dr"]

/-- Street suffix alternation of the fourth ADDRESS rule. -/
def streetSufShort : RE :=
  alts [lits "Street", lits "St", lits "Avenue", lits "Ave", lits "Road",
        lits "Rd"]

/-- ADDRESS rules (lines 64-71). -/
def addressRules : List RE :=
  [ seqs [plus dcls, plus scls, plus addrC, streetSufLong, wb],
    seqs [wb, alts [lits "Address", lits "Addr"], opt (lit '.'), opt (lit ':'),
      RE.star scls, plus dcls, plus scls, plus addrC, streetSufMid, wb],
    seqs [wb, lit 'P', opt (lit '.'), lit 'O', opt (lit '.'), plus scls,
      lits "Box", plus scls, plus dcls, wb],
    seqs [wb, repB 1 5 dcls, plus scls,
      alts [lits "North", lits "South", lits "East", lits "West",
            lits "N", lits "S", lits "E", lits "W"],
      opt (lit '.'), plus scls, plus addrC, streetSufShort, wb],
    seqs [wb, alts [lits "Apt", lits "Apartment", lits "Unit", lits "Suite",
            lits "Ste"],
      opt (lit '.'), RE.star scls, opt (lit '#'), plus dcls, opt alphaA, wb],
    RE.alt (seqs [wb, lits "Floor", plus scls, plus dcls, wb])
      (seqs [wb, plus dcls, alts [lits "st", lits "nd", lits "rd", lits "th"],
        plus scls, lits "Floor", wb]) ]

/-- CREDIT_CARD rules (lines 72-78). -/
def creditRules : List RE :=
  [ seqs [wb, repE 3 (seqs [repE 4 dcls, opt dashS]), repE 4 dcls, wb],
    seqs [wb, lit '4', repE 3 dcls, opt dashS, repE 4 dcls, opt dashS,
      repE 4 dcls, opt dashS, repE 4 dcls, wb],
    seqs [wb, lit '5', cc [CAtom.range '1' '5'], repE 2 dcls, opt dashS,
      repE 4 dcls, opt dashS, repE 4 dcls, opt dashS, repE 4 dcls, wb],
    seqs [wb, lit '3', cc [CAtom.ch '4', CAtom.ch '7'], repE 2 dcls, opt dashS,
      repE 6 dcls, opt dashS, repE 5 dcls, wb],
    seqs [wb, alts [seqs [lits "credit", plus scls, lits "card"], lits "cc"],
      opt (lit '.'), opt (lit ':'), RE.star scls, repE 4 dcls, opt dashS,
      repE 4 dcls, opt dashS, repE 4 dcls, opt dashS, repE 4 dcls, wb] ]

/-- Month-name alternation of the DATE_OF_BIRTH rules, in source order. -/
def monthAlt : RE :=
  alts [lits "January", lits "February", lits "March", lits "April",
        lits "May", lits "June", lits "July", lits "August", lits "September",
        lits "October", lits "November", lits "December", lits "Jan",
        lits "Feb", lits "Mar", lits "Apr", lits "May", lits "Jun",
        lits "Jul", lits "Aug", lits "Sep", lits "Oct", lits "Nov",
        lits "Dec"]

/-- DATE_OF_BIRTH rules (lines 79-84). -/
def dobRules : List RE :=
  [ seqs [wb, alts [lits "dob",
        seqs [lits "date", plus scls, lits "of", plus scls, lits "birth"],
        seqs [lits "birth", plus scls, lits "date"]],
      opt (lit '.'), opt (lit ':'), RE.star scls, repB 1 2 dcls, dashSlash,
      repB 1 2 dcls, dashSlash, repB 2 4 dcls, wb],
    seqs [wb, repB 1 2 dcls, dashSlash, repB 1 2 dcls, dashSlash, repE 4 dcls, wb],
    seqs [wb, monthAlt, opt (lit '.'), plus scls, repB 1 2 dcls, opt (lit ','),
      plus scls, repE 4 dcls, wb],
    seqs [wb, repB 1 2 dcls, plus scls, monthAlt, opt (lit '.'), plus scls,
      repE 4 dcls, wb] ]

/-- DRIVER_LICENSE rules (lines 85-89). -/
def dlRules : List RE :=
  [ seqs [wb, alts [lits "dl",
        seqs [lits "driver", plus scls, lits "license"],
        seqs [lits "driver", opt (lit 's'), plus scls, lits "license"]],
      opt (lit '.'), opt (lit ':'), RE.star scls, repB 1 2 upperA,
      repB 6 8 dcls, wb],
    seqs [wb, upperA, repB 7 8 dcls, wb],
    seqs [wb, lits "license", plus scls, lits "number", opt (lit '.'),
      opt (lit ':'), RE.star scls, repB 6 12 upDigC, wb] ]

/-- PASSPORT rules (lines 90-93). -/
def passportRules : List RE :=
  [ seqs [wb, alts [lits "passport", lits "pp"], opt (lit '.'), opt (lit ':'),
      RE.star scls, repB 6 9 upDigC, wb],
    seqs [wb, lits "passport", plus scls, lits "number", opt (lit '.'),
      opt (lit ':'), RE.star scls, repB 6 9 upDigC, wb] ]

/-- BANK_ACCOUNT rules (lines 94-98). -/
def bankRules : List RE :=
  [ seqs [wb, alts [lits "account", lits "acc"], opt (lit '.'), plus scls,
      alts [lits "number", lit '#'], opt (lit '.'), opt (lit ':'),
      RE.star scls, repB 8 17 dcls, wb],
    seqs [wb, alts [lits "routing", lits "rt"], opt (lit '.'), plus scls,
      alts [lits "number", lit '#'], opt (lit '.'), opt (lit ':'),
      RE.star scls, repE 9 dcls, wb],
    seqs [wb, lits "iban", opt (lit '.'), opt (lit ':'), RE.star scls,
      repE 2 upperA, repE 2 dcls, repB 4 30 upDigC, wb] ]

/-- IP_ADDRESS rules (lines 99-102). -/
def ipRules : List RE :=
  [ seqs [wb, repE 3 (seqs [repB 1 3 dcls, lit '.']), repB 1 3 dcls, wb],
    seqs [wb, repE 7 (seqs [repB 1 4 hexC, lit ':']), repB 1 4 hexC, wb] ]

/-- MAC_ADDRESS rule (lines 103-105). -/
def macRules : List RE :=
  [ seqs [wb, repE 5 (seqs [repE 2 hexC, cc [CAtom.ch ':', CAtom.ch '-']]),
      repE 2 hexC, wb] ]

/-- USERNAME rules (lines 106-109). -/
def usernameRules : List RE :=
  [ seqs [wb, alts [lits "username", seqs [lits "user", plus scls, lits "name"],
        lits "login"],
      opt (lit '.'), opt (lit ':'), RE.star scls, repB 3 20 userC, wb],
    seqs [wb, lit '@', repB 3 20 userC, wb] ]

/-- MEDICAL_ID rules (lines 110-113). -/
def medicalRules : List RE :=
  [ seqs [wb, alts [seqs [lits "patient", plus scls, lits "id"],
        seqs [lits "medical", plus scls, lits "record"]],
      opt (lit '.'), opt (lit ':'), RE.star scls, repB 6 12 dcls, wb],
    seqs [wb, alts [lits "mrn",
        seqs [lits "medical", plus scls, lits "record", plus scls, lits "number"]],
      opt (lit '.'), opt (lit ':'), RE.star scls, repB 6 12 dcls, wb] ]

/-- COORDINATES rules (lines 114-118). -/
def coordRules : List RE :=
  [ seqs [wb, opt signC, repB 1 3 dcls, lit '.', plus dcls, lit ',',
      RE.star scls, opt signC, repB 1 3 dcls, lit '.', plus dcls, wb],
    seqs [wb, alts [lits "lat", lits "latitude"], opt (lit '.'), opt (lit ':'),
      RE.star scls, opt signC, repB 1 3 dcls, lit '.', plus dcls, wb],
    seqs [wb, alts [lits "lon", lits "lng", lits "longitude"], opt (lit '.'),
      opt (lit ':'), RE.star scls, opt signC, repB 1 3 dcls, lit '.',
      plus dcls, wb] ]

/-- VEHICLE_ID rules (lines 119-122). -/
def vehicleRules : List RE :=
  [ seqs [wb, alts [lits "vin", seqs [lits "vehicle", plus scls, lits "id"]],
      opt (lit '.'), opt (lit ':'), RE.star scls, repE 17 vinC, wb],
    seqs [wb, alts [seqs [lits "license", plus scls, lits "plate"], lits "plate"],
      opt (lit '.'), opt (lit ':'), RE.star scls, repB 2 8 upDigC, wb] ]

/-- The full catalog: the insertion-ordered dict self.patterns of
PIIDetector.__init__, as an ordered association list. -/
def piiPatterns : List (String × List RE) :=
  [ ("PERSON", personRules), ("PHONE", phoneRules), ("EMAIL", emailRules),
    ("SSN", ssnRules), ("ADDRESS", addressRules), ("CREDIT_CARD", creditRules),
    ("DATE_OF_BIRTH", dobRules), ("DRIVER_LICENSE", dlRules),
    ("PASSPORT", passportRules), ("BANK_ACCOUNT", bankRules),
    ("IP_ADDRESS", ipRules), ("MAC_ADDRESS", macRules),
    ("USERNAME", usernameRules), ("MEDICAL_ID", medicalRules),
    ("COORDINATES", coordRules), ("VEHICLE_ID", vehicleRules) ]

/-- Fixed confidence constant of the enhanced-regex detection method: the
source literal 0.85 (line 148 and line 154), i.e. the rational 17/20 in
lowest terms, written through the Rat constructor so that it evaluates by
kernel reduction. -/
def score : ℚ := Rat.mk' 17 20 (by norm_num) (by norm_num)

/-- Rational zero, the confidence of an empty analysis (line 129/154). -/
def zeroConf : ℚ := Rat.mk' 0 1 (by norm_num) (by norm_num)

/-- Accepted entity, mirroring the dict appended at lines 146-152: keys
entity, confidence, start, end and word. Since end is a Lean keyword the
field is named endPos. Confidence is modeled as a rational; the source stores
the literal 0.85 and never computes with it. -/
structure Entity where
  entity : String
  confidence : ℚ
  start : Nat
  endPos : Nat
  word : String
deriving DecidableEq, Repr

/-- Analysis result, mirroring the results dict of analyze_text. -/
structure AnalysisResult where
  entities : List Entity
  confidence : ℚ
  method : String
deriving DecidableEq, Repr

/-- Substring of t from character position i (inclusive) to j (exclusive);
this is the value match.group() yields for a match with span (i, j). -/
def slice (t : String) (i j : Nat) : String :=
  String.mk ((t.data.drop i).take (j - i))

/-- Collision test of lines 139-143: the candidate span (ms, me) collides
with some accepted entity e when e.start ≤ ms < e.end or
e.start < me ≤ e.end. -/
def overlapsAny (acc : List Entity) (ms me : Nat) : Bool :=
  acc.any (fun e =>
    decide ((e.start ≤ ms ∧ ms < e.endPos) ∨ (e.start < me ∧ me ≤ e.endPos)))

/-- Entity built from a candidate span, as at lines 146-152. -/
def mkEntity (t : String) (cat : String) (m : Nat × Nat) : Entity :=
  { entity := cat, confidence := score, start := m.1, endPos := m.2,
    word := slice t m.1 m.2 }

/-- Entity-collection loop of analyze_text (lines 134-152): iterate
categories in catalog order and rules in declared order, run finditer for
each rule, and append each candidate unless it collides with an
already-accepted entity. -/
def detectEntities (patterns : List (String × List RE)) (text : String) :
    List Entity :=
  patterns.foldl (fun acc cp =>
    cp.2.foldl (fun acc re =>
      (finditer re text.data).foldl (fun acc m =>
        if overlapsAny acc m.1 m.2 then acc
        else acc ++ [mkEntity text cp.1 m]) acc) acc) []

/-- Shallow embedding of PIIDetector.analyze_text (lines 125-155): collect
the entities, then set the aggregate confidence from emptiness of the entity
list (0.85 if any entity was found, else 0.0, line 154) and the constant
method tag. -/
def analyze_text (patterns : List (String × List RE)) (text : String) :
    AnalysisResult :=
  let entities := detectEntities patterns text
  { entities := entities
    confidence := if entities.isEmpty then zeroConf else score
    method := "enhanced_regex" }

/-- Detector state: the only instance attribute the source object has is the
pattern catalog set in __init__. -/
structure PIIDetector where
  patterns : List (String × List RE)
deriving Repr

/-- The detector as constructed by __init__. -/
def PIIDetector.new : PIIDetector := ⟨piiPatterns⟩

/-- Method call with the receiver threaded explicitly: PIIDetector.analyze_text
reads self.patterns and performs no assignment to self, so the state passed
out is the state passed in. -/
def PIIDetector.analyzeM (d : PIIDetector) (t : String) :
    AnalysisResult × PIIDetector :=
  (analyze_text d.patterns t, d)

/-- Top-level analyze on the fixed catalog: what the HTTP handler invokes via
self.detector.analyze_text(prompt). -/
def analyze (t : String) : AnalysisResult :=
  analyze_text PIIDetector.new.patterns t

/-
Notions used to state the claims about analyze_text.
-/

/-- Overlap of two accepted entities in the sense of section 3 of the
specification, with half-open spans: s1 ≤ s2 < e1 or s2 ≤ s1 < e2. -/
def specOverlap (a b : Entity) : Prop :=
  (a.start ≤ b.start ∧ b.start < a.endPos) ∨
  (b.start ≤ a.start ∧ a.start < b.endPos)

instance (a b : Entity) : Decidable (specOverlap a b) := by
  unfold specOverlap; infer_instance

/-- Acceptance step of the collection loop: keep the accumulator if the
candidate collides with an already-accepted entity, otherwise append the
candidate. -/
def accept (acc : List Entity) (e : Entity) : List Entity :=
  if overlapsAny acc e.start e.endPos then acc else acc ++ [e]

/-- Candidate entities of one category's rule list, in scan order. -/
def rulesMatches (t : String) (cat : String) : List RE → List Entity
  | [] => []
  | re :: rs => (finditer re t.data).map (mkEntity t cat) ++ rulesMatches t cat rs

/-- Candidate entities of the whole catalog, in scan order: all matches of
all rules of all categories, before overlap resolution. -/
def candidates : List (String × List RE) → String → List Entity
  | [], _ => []
  | cp :: ps, t => rulesMatches t cp.1 cp.2 ++ candidates ps t

/-- Continuations whose successful results stay between their argument and
the end of the text. -/
def KGood (n : Nat) (k : Nat → Option Nat) : Prop :=
  ∀ q j, q ≤ n → k q = some j → q ≤ j ∧ j ≤ n

/-
Theorems. First the value of the two confidence constants, then span bounds
for the matcher, then the characterisation of the collection loop as a fold
of the acceptance step over the candidate list, and finally the claims.
-/

/-- Value of the confidence constant: score is the rational 0.85. -/
theorem score_val : score = 85/100 := by
  unfold score
  rw [Rat.mk'_eq_divInt]
  norm_num [Rat.divInt_eq_div]

/-- Value of the empty-analysis confidence constant: it is the rational 0. -/
theorem zeroConf_val : zeroConf = 0 := by
  unfold zeroConf
  rw [Rat.mk'_eq_divInt]
  norm_num

/-- Any successful result of one matcher pass lies between the start position
and the end of the text, provided the continuation and the star re-entry
callback have the same property. -/
theorem mrunRE_bound (s : List Char)
    (recur : RE → Nat → (Nat → Option Nat) → Option Nat)
    (hrec : ∀ re i k, i ≤ s.length → KGood s.length k →
      ∀ j, recur re i k = some j → i ≤ j ∧ j ≤ s.length) :
    ∀ re i k, i ≤ s.length → KGood s.length k →
      ∀ j, mrunRE s recur re i k = some j → i ≤ j ∧ j ≤ s.length := by
  intro re
  induction re with
  | eps =>
    intro i k hi hk j h
    exact hk i j hi h
  | cls c =>
    intro i k hi hk j h
    simp only [mrunRE] at h
    cases hg : s.get? i with
    | none => rw [hg] at h; exact absurd h (by simp)
    | some ch =>
      rw [hg] at h
      dsimp only at h
      have hlt : i < s.length := by
        by_contra hge
        rw [List.get?_eq_none.mpr (Nat.le_of_not_lt hge)] at hg
        exact absurd hg (by simp)
      by_cases hm : memIC c ch
      · rw [if_pos hm] at h
        have := hk (i+1) j hlt h
        exact ⟨Nat.le_of_succ_le this.1, this.2⟩
      · rw [if_neg hm] at h; exact absurd h (by simp)
  | seq a b iha ihb =>
    intro i k hi hk j h
    simp only [mrunRE] at h
    refine iha i _ hi ?_ j h
    intro q j' hq hj'
    exact ihb q k hq hk j' hj'
  | alt a b iha ihb =>
    intro i k hi hk j h
    simp only [mrunRE] at h
    cases hm : mrunRE s recur a i k with
    | some j' => rw [hm] at h; dsimp only at h; cases h; exact iha i k hi hk _ hm
    | none => rw [hm] at h; dsimp only at h; exact ihb i k hi hk j h
  | star r ihr =>
    intro i k hi hk j h
    simp only [mrunRE] at h
    have hk2 : KGood s.length
        (fun j => if j == i then none else recur (RE.star r) j k) := by
      intro q j' hq hj'
      simp only at hj'
      by_cases he : q = i
      · rw [if_pos (by simpa using he)] at hj'; exact absurd hj' (by simp)
      · rw [if_neg (by simpa using he)] at hj'
        exact hrec (RE.star r) q k hq hk j' hj'
    cases hm : mrunRE s recur r i
        (fun j => if j == i then none else recur (RE.star r) j k) with
    | some j' => rw [hm] at h; dsimp only at h; cases h; exact ihr i _ hi hk2 _ hm
    | none => rw [hm] at h; dsimp only at h; exact hk i j hi h
  | wordB =>
    intro i k hi hk j h
    simp only [mrunRE] at h
    by_cases hb : wordBoundary s i
    · rw [if_pos hb] at h; exact hk i j hi h
    · rw [if_neg hb] at h; exact absurd h (by simp)

/-- The fuelled driver inherits the span bound for every fuel value. -/
theorem mrun_bound (s : List Char) :
    ∀ fuel re i k, i ≤ s.length → KGood s.length k →
      ∀ j, mrun s fuel re i k = some j → i ≤ j ∧ j ≤ s.length := by
  intro fuel
  induction fuel with
  | zero =>
    intro re i k hi hk j h
    refine mrunRE_bound s _ ?_ re i k hi hk j h
    intro re i k _ _ j h
    exact absurd h (by simp)
  | succ fuel ih =>
    intro re i k hi hk j h
    exact mrunRE_bound s _ (fun re i k hi hk j h => ih re i k hi hk j h)
      re i k hi hk j h

/-- A match attempted at position i ends at or after i and within the text. -/
theorem matchAt_bound (re : RE) (s : List Char) (i : Nat) (hi : i ≤ s.length) :
    ∀ j, matchAt re s i = some j → i ≤ j ∧ j ≤ s.length := by
  intro j h
  refine mrun_bound s _ re i some hi ?_ j h
  intro q j' hq hj'
  cases hj'
  exact ⟨Nat.le_refl q, hq⟩

/-- Every span produced by the scan loop is well formed and within bounds. -/
theorem finditerAux_bound (re : RE) (s : List Char) :
    ∀ fuel i, ∀ p ∈ finditerAux re s fuel i, p.1 ≤ p.2 ∧ p.2 ≤ s.length := by
  intro fuel
  induction fuel with
  | zero => intro i p hp; simp [finditerAux] at hp
  | succ fuel ih =>
    intro i p hp
    simp only [finditerAux] at hp
    by_cases hi : i ≤ s.length
    · rw [if_pos hi] at hp
      cases hm : matchAt re s i with
      | some j =>
        rw [hm] at hp
        dsimp only at hp
        rcases List.mem_cons.mp hp with h | h
        · subst h; exact matchAt_bound re s i hi j hm
        · exact ih _ p h
      | none =>
        rw [hm] at hp
        dsimp only at hp
        exact ih _ p hp
    · rw [if_neg hi] at hp
      simp at hp

/-- Every span finditer yields is well formed and within the text. -/
theorem finditer_bound (re : RE) (s : List Char) :
    ∀ p ∈ finditer re s, p.1 ≤ p.2 ∧ p.2 ≤ s.length :=
  fun p hp => finditerAux_bound re s _ 0 p hp

/-- Every candidate of a rule list comes from a finditer span and carries a
well-formed in-bounds span. -/
theorem rulesMatches_mem (t cat : String) :
    ∀ rs, ∀ e ∈ rulesMatches t cat rs,
      ∃ m, e = mkEntity t cat m ∧ m.1 ≤ m.2 ∧ m.2 ≤ t.data.length := by
  intro rs
  induction rs with
  | nil => intro e he; simp [rulesMatches] at he
  | cons re rs ih =>
    intro e he
    rcases List.mem_append.mp he with h | h
    · obtain ⟨m, hm, rfl⟩ := List.mem_map.mp h
      exact ⟨m, rfl, finditer_bound re t.data m hm⟩
    · exact ih e h

/-- Every candidate of the catalog comes from some rule's finditer span and
carries a well-formed in-bounds span. -/
theorem candidates_mem :
    ∀ ps (t : String), ∀ e ∈ candidates ps t,
      ∃ cat m, e = mkEntity t cat m ∧ m.1 ≤ m.2 ∧ m.2 ≤ t.data.length := by
  intro ps
  induction ps with
  | nil => intro t e he; simp [candidates] at he
  | cons cp ps ih =>
    intro t e he
    rcases List.mem_append.mp he with h | h
    · obtain ⟨m, hm, h1, h2⟩ := rulesMatches_mem t cp.1 cp.2 e h
      exact ⟨cp.1, m, hm, h1, h2⟩
    · exact ih t e h

/-- The innermost loop of the collector is the acceptance fold over the
entities built from one rule's matches. -/
theorem foldl_step_eq (t cat : String) (ms : List (Nat × Nat)) (acc : List Entity) :
    ms.foldl (fun acc m =>
        if overlapsAny acc m.1 m.2 then acc else acc ++ [mkEntity t cat m]) acc
      = (ms.map (mkEntity t cat)).foldl accept acc := by
  rw [List.foldl_map]
  rfl

/-- The per-category loop of the collector is the acceptance fold over that
category's candidate list. -/
theorem rules_fold_eq (t cat : String) :
    ∀ (rs : List RE) (acc : List Entity),
      rs.foldl (fun acc re =>
          (finditer re t.data).foldl (fun acc m =>
            if overlapsAny acc m.1 m.2 then acc
            else acc ++ [mkEntity t cat m]) acc) acc
        = (rulesMatches t cat rs).foldl accept acc := by
  intro rs
  induction rs with
  | nil => intro acc; rfl
  | cons re rs ih =>
    intro acc
    simp only [List.foldl_cons, rulesMatches, List.foldl_append]
    rw [ih, foldl_step_eq]

/-- The full nested loop of the collector is the acceptance fold over the
catalog's candidate list in scan order. -/
theorem catalog_fold_eq (t : String) :
    ∀ (ps : List (String × List RE)) (acc : List Entity),
      ps.foldl (fun acc cp =>
          cp.2.foldl (fun acc re =>
            (finditer re t.data).foldl (fun acc m =>
              if overlapsAny acc m.1 m.2 then acc
              else acc ++ [mkEntity t cp.1 m]) acc) acc) acc
        = (candidates ps t).foldl accept acc := by
  intro ps
  induction ps with
  | nil => intro acc; rfl
  | cons cp ps ih =>
    intro acc
    simp only [List.foldl_cons, candidates, List.foldl_append]
    rw [ih, rules_fold_eq]

/-- The collection loop equals the acceptance fold over the candidates. -/
theorem detectEntities_eq (ps : List (String × List RE)) (t : String) :
    detectEntities ps t = (candidates ps t).foldl accept [] :=
  catalog_fold_eq t ps []

/-- The acceptance fold appends a subsequence of the processed list. -/
theorem foldl_accept_sublist :
    ∀ (l acc : List Entity), ∃ tl, l.foldl accept acc = acc ++ tl ∧ tl.Sublist l := by
  intro l
  induction l with
  | nil => intro acc; exact ⟨[], by simp, List.Sublist.refl []⟩
  | cons x xs ih =>
    intro acc
    simp only [List.foldl_cons]
    by_cases h : overlapsAny acc x.start x.endPos
    · have hx : accept acc x = acc := by simp [accept, h]
      rw [hx]
      obtain ⟨tl, htl, hsub⟩ := ih acc
      exact ⟨tl, htl, hsub.cons x⟩
    · have hx : accept acc x = acc ++ [x] := by simp [accept, h]
      rw [hx]
      obtain ⟨tl, htl, hsub⟩ := ih (acc ++ [x])
      exact ⟨x :: tl, by simpa [List.append_assoc] using htl, hsub.cons₂ x⟩

/-- Everything the acceptance fold keeps was one of the candidates. -/
theorem mem_foldl_accept (l : List Entity) (e : Entity) :
    e ∈ l.foldl accept [] → e ∈ l := by
  intro he
  obtain ⟨tl, htl, hsub⟩ := foldl_accept_sublist l []
  rw [htl] at he
  simp only [List.nil_append] at he
  exact hsub.subset he

/-- Confidence of an analysis as a function of emptiness of its entities. -/
theorem analyze_text_confidence (ps : List (String × List RE)) (t : String) :
    (analyze_text ps t).confidence =
      if (analyze_text ps t).entities = [] then zeroConf else score := by
  show (if (detectEntities ps t).isEmpty then zeroConf else score)
    = if (detectEntities ps t) = [] then zeroConf else score
  cases h : detectEntities ps t with
  | nil => simp
  | cons a l => simp

/-
The claims.
-/

/-- Claim C1 is violated by the code: on the input below, analyze returns a
PERSON entity with span half-open 3 to 12 and an ADDRESS entity with span 0
to 17; the spans overlap under the half-open test of the specification
(s2 ≤ s1 < e2), because the collision test of lines 139-143 misses the case
of a candidate that strictly contains an already-accepted span. -/
theorem c1_no_overlap_invariant_violated :
    (analyze "12 Elm Grove Lane").entities =
      [⟨"PERSON", score, 3, 12, "Elm Grove"⟩,
       ⟨"ADDRESS", score, 0, 17, "12 Elm Grove Lane"⟩] ∧
    specOverlap (⟨"PERSON", score, 3, 12, "Elm Grove"⟩ : Entity)
      ⟨"ADDRESS", score, 0, 17, "12 Elm Grove Lane"⟩ := by
  constructor
  · decide
  · decide

/-- Claim C2 is violated by the code: on the input below, the PERSON entity
with span 3 to 11 is accepted first, and the later ADDRESS candidate with
span 0 to 17 overlaps it under the half-open test of the specification, yet
it is accepted rather than discarded (it appears after the PERSON entity in
the result, i.e. it was accepted while the PERSON entity was already in the
accepted list): the code's collision test is asymmetric and does not detect
a candidate that strictly contains an accepted span. -/
theorem c2_overlapping_candidate_accepted :
    (analyze "10 Oak Hill Drive").entities =
      [⟨"PERSON", score, 3, 11, "Oak Hill"⟩,
       ⟨"ADDRESS", score, 0, 17, "10 Oak Hill Drive"⟩] ∧
    specOverlap (⟨"PERSON", score, 3, 11, "Oak Hill"⟩ : Entity)
      ⟨"ADDRESS", score, 0, 17, "10 Oak Hill Drive"⟩ := by
  constructor
  · decide
  · decide

/-- Claim C3: for every input text, the aggregate confidence is the constant
0.85 when the entity list is non-empty and exactly 0 when it is empty. -/
theorem c3_confidence_aggregation (t : String) :
    (analyze t).confidence =
      if (analyze t).entities = [] then 0 else 85/100 := by
  rw [show (0 : ℚ) = zeroConf from zeroConf_val.symm,
    show (85/100 : ℚ) = score from score_val.symm]
  exact analyze_text_confidence PIIDetector.new.patterns t

/-- Claim C4 is violated by the code: the input below is supposed to yield
zero entities and confidence 0.0, but because every rule is compiled with
re.IGNORECASE the first PERSON rule (capitalised First Last) matches the
lower-case words, so analyze returns two PERSON entities and confidence
0.85. -/
theorem c4_no_identifying_input_detects_person :
    (analyze "No identifying info here.").entities =
      [⟨"PERSON", score, 0, 14, "No identifying"⟩,
       ⟨"PERSON", score, 15, 24, "info here"⟩] ∧
    (analyze "No identifying info here.").confidence = 85/100 := by
  refine ⟨by decide, ?_⟩
  rw [show (85/100 : ℚ) = score from score_val.symm]
  decide

/-- Claim C5: analyzing the empty string yields zero entities and aggregate
confidence 0.0. -/
theorem c5_empty_input :
    (analyze "").entities = [] ∧ (analyze "").confidence = 0 := by
  refine ⟨by decide, ?_⟩
  rw [show (0 : ℚ) = zeroConf from zeroConf_val.symm]
  decide

/-- Claim C6: analyze is deterministic; invoking the method twice in
sequence on the identical text, threading the detector state, returns the
identical analysis result (same entities in the same order, same confidence,
same method tag). -/
theorem c6_deterministic (d : PIIDetector) (t : String) :
    ((d.analyzeM t).2.analyzeM t).1 = (d.analyzeM t).1 := rfl

/-- Claim C7: on the SSN scenario input, the result contains an SSN entity
whose span covers the digit group 123-45-6789, which occupies the half-open
character range 5 to 16 of the input. -/
theorem c7_ssn_detected :
    ∃ e ∈ (analyze "SSN: 123-45-6789").entities,
      e.entity = "SSN" ∧ e.start ≤ 5 ∧ 16 ≤ e.endPos := by
  decide

/-- Claim C8 is violated by the code: on the contact scenario input the
result contains a PHONE entity with text 555-123-4567, but no EMAIL entity
at all: the case-insensitive PERSON rule accepts the span "com or" (characters
41 to 47), and the email candidate (characters 22 to 44) then collides with
it and is discarded. -/
theorem c8_email_entity_missing :
    (∀ e ∈ (analyze "Contact John Smith at john.smith@example.com or 555-123-4567").entities,
      e.entity ≠ "EMAIL") ∧
    (∃ e ∈ (analyze "Contact John Smith at john.smith@example.com or 555-123-4567").entities,
      e.entity = "PHONE" ∧ e.word = "555-123-4567") := by
  constructor
  · decide
  · decide

/-- Claim C9: the analysis has no side effects; with the receiver threaded
explicitly, the detector state coming out is the state going in (the pattern
catalog, its order and every rule are unchanged), and the result is a pure
function of the catalog and the input text. -/
theorem c9_analyze_pure (d : PIIDetector) (t : String) :
    (d.analyzeM t).2 = d ∧ (d.analyzeM t).1 = analyze_text d.patterns t :=
  ⟨rfl, rfl⟩

/-- Claim C10: every entity in the result of analyze has a well-formed span,
start at most end, end at most the length of the input text, and its word
field is exactly the substring of the input from start inclusive to end
exclusive. -/
theorem c10_spans_wellformed (t : String) :
    ∀ e ∈ (analyze t).entities,
      e.start ≤ e.endPos ∧ e.endPos ≤ t.length ∧
        e.word = slice t e.start e.endPos := by
  intro e he
  have he2 : e ∈ detectEntities piiPatterns t := he
  rw [detectEntities_eq] at he2
  have he3 := mem_foldl_accept _ _ he2
  obtain ⟨cat, m, rfl, h1, h2⟩ := candidates_mem piiPatterns t e he3
  exact ⟨h1, h2, rfl⟩

/-- Witness for claim C10, instantiated at the SSN scenario input and the
SSN entity the analysis returns there. -/
theorem c10_spans_wellformed_witness :
    (5 : Nat) ≤ 16 ∧ (16 : Nat) ≤ ("SSN: 123-45-6789" : String).length ∧
      "123-45-6789" = slice "SSN: 123-45-6789" 5 16 :=
  c10_spans_wellformed "SSN: 123-45-6789"
    ⟨"SSN", score, 5, 16, "123-45-6789"⟩ (by decide)

end PII

